import Mathlib

/-! BankingSystem dashboard (`frontend/banking-ui/src/App.jsx`)

A shallow embedding of the `App` component as an event-driven state machine.

* `AppState` holds the values of the `useState` cells.
* `Sys` adds what lives outside the cells: the logical clock, the pending
  `setTimeout` handles, the cleanup closure of the merchant-search effect, the
  `fetch` calls that have been issued and not yet settled, the record of
  every request ever issued, and the `alert` calls made so far.
* `Ev` lists what can happen: a user gesture, the arrival of a reply to an
  outstanding request, or the passage of time.
* `step` runs one event to quiescence: the handler, the single batched
  re-render, and the effects whose dependency changed by `Object.is`.

`String.prototype.toUpperCase` is a parameter (`up`) of the machine.
-/

namespace BankingUI

/-! ## Values -/

/-- A scalar JSON value as the component reads it (`d.balance`, `j.error`).
A number is carried by its canonical rendering, the text `String(n)` yields. -/
inductive JVal where
  | undefined
  | null
  | bool (b : Bool)
  | num (shown : String)
  | str (s : String)
  deriving DecidableEq, Repr

/-- JavaScript truthiness, as used by `j.error || "unknown"`. -/
def JVal.truthy : JVal → Bool
  | .undefined => false
  | .null => false
  | .bool b => b
  | .num shown => decide (shown ≠ "0")
  | .str s => decide (s ≠ "")

/-- The text a value contributes to a string concatenation. -/
def JVal.toStr : JVal → String
  | .undefined => "undefined"
  | .null => "null"
  | .bool true => "true"
  | .bool false => "false"
  | .num shown => shown
  | .str s => s

/-- White space and line terminators removed by `String.prototype.trim`. -/
def isWhiteSpace (c : Char) : Bool :=
  let n := c.toNat
  n = 0x09 || n = 0x0A || n = 0x0B || n = 0x0C || n = 0x0D || n = 0x20 ||
  n = 0xA0 || n = 0x1680 || (0x2000 ≤ n && n ≤ 0x200A) || n = 0x2028 ||
  n = 0x2029 || n = 0x202F || n = 0x205F || n = 0x3000 || n = 0xFEFF

/-- The call `s.trim()`. -/
def trim (s : String) : String :=
  String.mk ((s.data.dropWhile isWhiteSpace).reverse.dropWhile isWhiteSpace).reverse

/-- The upper-case mapping of one character below U+0100, as
`String.prototype.toUpperCase` performs it: the ASCII and Latin-1 small letters
go to their capitals, the sharp s to `SS`, the micro sign to the Greek capital
mu, the y with diaeresis to U+0178. Any other character is left as it is. -/
def upperChar (c : Char) : List Char :=
  let n := c.toNat
  if 0x61 ≤ n ∧ n ≤ 0x7A then [Char.ofNat (n - 32)]
  else if n = 0xB5 then [Char.ofNat 0x39C]
  else if n = 0xDF then ['S', 'S']
  else if 0xE0 ≤ n ∧ n ≤ 0xFE ∧ n ≠ 0xF7 then [Char.ofNat (n - 32)]
  else if n = 0xFF then [Char.ofNat 0x178]
  else [c]

/-- One instance of the `toUpperCase` parameter, used to run the machine on
concrete inputs. It is `toUpperCase` on the strings whose characters are all
below U+0100 (ASCII and Latin-1); on a string with a character from U+0100 on
it leaves that character as it is, which `toUpperCase` need not do. No theorem
about the machine depends on it: they hold for every `up`. -/
def upperLatin1 (s : String) : String :=
  String.mk (s.data.flatMap upperChar)

/-! ## Data model -/

/-- An element of the `/api/accounts` array. -/
structure Account where
  accountNo : String
  balance : JVal
  deriving DecidableEq, Repr

/-- An element of the `/api/customer/:cid/transactions` array. -/
structure TransactionRecord where
  kind : String
  fromAcct : String
  target : String
  amount : JVal
  currency : String
  channel : String
  createdAt : String
  deriving DecidableEq, Repr

/-- An element of the `/api/merchants` array. -/
structure Merchant where
  merchantId : String
  name : String
  deriving DecidableEq, Repr

/-- The cell `tf`. -/
structure TransferDraft where
  «from» : String
  «to» : String
  amount : String
  currency : String
  txId : String
  channel : String
  deriving DecidableEq, Repr

/-- The cell `pf`. -/
structure PaymentDraft where
  «from» : String
  merchantId : String
  amount : String
  currency : String
  txId : String
  channel : String
  deriving DecidableEq, Repr

/-- The inputs of the transfer form. -/
inductive TransferField where
  | «from» | «to» | amount | currency | txId | channel
  deriving DecidableEq, Repr

/-- The inputs of the payment form (the search box is not one of them). -/
inductive PaymentField where
  | «from» | merchantId | amount | currency | txId | channel
  deriving DecidableEq, Repr

/-- The `useState` cells of `App`. -/
structure AppState where
  accounts : List Account
  selected : String
  balance : JVal
  cid : String
  rows : List TransactionRecord
  loading : Bool
  tf : TransferDraft
  pf : PaymentDraft
  merchQuery : String
  merchList : List Merchant
  deriving DecidableEq, Repr

/-- A request handed to `fetch`: method, endpoint and what it carries. -/
inductive Req where
  | getAccounts
  | getBalance (accountNo : String)
  | getTransactions (cid : String)
  | getMerchants (q : String)
  | postTransfer (body : TransferDraft)
  | postPay (body : PaymentDraft)
  deriving DecidableEq, Repr

/-- An issued `fetch` whose promise has not settled. `selected` is the value
of the `selected` cell in the render whose closure issued the request; only
the continuations of `submitTransfer` and `submitPay` read it. -/
structure Pending where
  req : Req
  selected : String
  deriving DecidableEq, Repr

/-- A handle returned by `setTimeout`, with the `q` its callback closed over. -/
structure Timer where
  id : Nat
  deadline : Nat
  q : String
  deriving DecidableEq, Repr

/-- The parsed body of a reply to a `POST`, as far as the handlers read it:
`error` is what `j.error` evaluates to (`undefined` when the member is absent);
`null` is the JSON text `null`, on which the member access throws. -/
inductive PostBody where
  | null
  | value (error : JVal)
  deriving DecidableEq, Repr

/-- How an outstanding request settles. The `GET` continuations never read the
status, so their payloads carry none. -/
inductive Reply where
  | networkError
  | unparseable (ok : Bool)
  | accounts (l : List Account)
  | balance (v : JVal)
  | transactions (l : List TransactionRecord)
  | merchants (l : List Merchant)
  | posted (ok : Bool) (j : PostBody)
  deriving DecidableEq, Repr

/-- The component together with its environment. Times are in milliseconds. -/
structure Sys where
  ui : AppState
  now : Nat
  nextTimer : Nat
  timers : List Timer
  cleanup : Option Nat
  inflight : List Pending
  log : List (Nat × Req)
  alerts : List String
  deriving DecidableEq, Repr

/-- What a user or the environment can do. -/
inductive Ev where
  | setSelected (v : String)
  | setCid (v : String)
  | refresh
  | setMerchQuery (v : String)
  | setTf (f : TransferField) (v : String)
  | setPf (f : PaymentField) (v : String)
  | clickMerchant (m : Merchant)
  | submitTransfer
  | submitPay
  | deliver (i : Nat) (r : Reply)
  | advance (dt : Nat)
  deriving DecidableEq, Repr

/-! ## Operations -/

/-- The arguments of the `useState` calls. -/
def initial : AppState where
  accounts := []
  selected := ""
  balance := .null
  cid := "C001"
  rows := []
  loading := false
  tf := ⟨"", "", "", "USD", "", "ui"⟩
  pf := ⟨"", "", "", "USD", "", "ui"⟩
  merchQuery := ""
  merchList := []

/-- The call `fetch(...)` made at time `t`. -/
def Sys.issueAt (s : Sys) (t : Nat) (r : Req) : Sys :=
  { s with log := s.log ++ [(t, r)], inflight := s.inflight ++ [⟨r, s.ui.selected⟩] }

/-- The call `fetch(...)` made now. -/
def Sys.issue (s : Sys) (r : Req) : Sys :=
  s.issueAt s.now r

/-- The call `alert(msg)`. -/
def Sys.alert (s : Sys) (msg : String) : Sys :=
  { s with alerts := s.alerts ++ [msg] }

/-- The effect with no dependency: load the account list. -/
def accountsEffect (s : Sys) : Sys :=
  s.issue .getAccounts

/-- The effect on `[selected]`. -/
def balanceEffect (s : Sys) : Sys :=
  if s.ui.selected ≠ "" then
    s.issue (.getBalance s.ui.selected)
  else
    { s with ui := { s.ui with balance := .null } }

/-- The effect on `[cid]`. -/
def transactionsEffect (s : Sys) : Sys :=
  Sys.issue { s with ui := { s.ui with loading := true } } (.getTransactions s.ui.cid)

/-- The cleanup returned by the previous run of the effect on `[merchQuery]`:
`clearTimeout(t)` when that run had set a timer. -/
def merchantCleanup (s : Sys) : Sys :=
  match s.cleanup with
  | none => s
  | some t => { s with timers := s.timers.filter (fun x => x.id ≠ t) }

/-- The effect on `[merchQuery]`. -/
def merchantEffect (s : Sys) : Sys :=
  let q := trim s.ui.merchQuery
  if q = "" then
    { s with ui := { s.ui with merchList := [] }, cleanup := none }
  else
    { s with
      timers := s.timers ++ [⟨s.nextTimer, s.now + 250, q⟩]
      nextTimer := s.nextTimer + 1
      cleanup := some s.nextTimer }

/-- The state after the first render and its effects. -/
def mount : Sys :=
  merchantEffect (transactionsEffect (balanceEffect (accountsEffect
    ⟨initial, 0, 0, [], none, [], [], []⟩)))

/-- The `onChange` of the account selector. -/
def setSelected (s : Sys) (v : String) : Sys :=
  if v = s.ui.selected then s
  else balanceEffect { s with ui := { s.ui with selected := v } }

/-- The `onChange` of the customer input, and `setCid` in general. -/
def setCid (s : Sys) (v : String) : Sys :=
  if v = s.ui.cid then s
  else transactionsEffect { s with ui := { s.ui with cid := v } }

/-- The `onClick` of the refresh button: `setCid(cid)`. -/
def refresh (s : Sys) : Sys :=
  setCid s s.ui.cid

/-- The `onChange` of the merchant search box. -/
def setMerchQuery (s : Sys) (v : String) : Sys :=
  if v = s.ui.merchQuery then s
  else merchantEffect (merchantCleanup { s with ui := { s.ui with merchQuery := v } })

/-- The `onChange` handlers of the transfer form: `{ ...tf, f: v }`. -/
def updateTf (up : String → String) (tf : TransferDraft) (f : TransferField) (v : String) :
    TransferDraft :=
  match f with
  | .from => { tf with «from» := v }
  | .«to» => { tf with «to» := v }
  | .amount => { tf with amount := v }
  | .currency => { tf with currency := up v }
  | .txId => { tf with txId := v }
  | .channel => { tf with channel := v }

/-- The `onChange` handlers of the payment form: `{ ...pf, f: v }`. -/
def updatePf (up : String → String) (pf : PaymentDraft) (f : PaymentField) (v : String) :
    PaymentDraft :=
  match f with
  | .from => { pf with «from» := v }
  | .merchantId => { pf with merchantId := v }
  | .amount => { pf with amount := v }
  | .currency => { pf with currency := up v }
  | .txId => { pf with txId := v }
  | .channel => { pf with channel := v }

/-- Reading a field of the transfer draft. -/
def TransferDraft.get (tf : TransferDraft) : TransferField → String
  | .from => tf.from
  | .«to» => tf.«to»
  | .amount => tf.amount
  | .currency => tf.currency
  | .txId => tf.txId
  | .channel => tf.channel

/-- Reading a field of the payment draft. -/
def PaymentDraft.get (pf : PaymentDraft) : PaymentField → String
  | .from => pf.from
  | .merchantId => pf.merchantId
  | .amount => pf.amount
  | .currency => pf.currency
  | .txId => pf.txId
  | .channel => pf.channel

/-- The event `setTf`. -/
def setTf (up : String → String) (s : Sys) (f : TransferField) (v : String) : Sys :=
  { s with ui := { s.ui with tf := updateTf up s.ui.tf f v } }

/-- The event `setPf`. -/
def setPf (up : String → String) (s : Sys) (f : PaymentField) (v : String) : Sys :=
  { s with ui := { s.ui with pf := updatePf up s.ui.pf f v } }

/-- The `onClick` of a suggestion: three setters, one render, then the effect
on `[merchQuery]` when the text changed. -/
def clickMerchant (s : Sys) (m : Merchant) : Sys :=
  let s1 : Sys := { s with ui := { s.ui with
    pf := { s.ui.pf with merchantId := m.merchantId }
    merchQuery := m.name
    merchList := [] } }
  if m.name = s.ui.merchQuery then s1
  else merchantEffect (merchantCleanup s1)

/-- The guard of `submitTransfer`, negated: every required field is set. -/
def TransferDraft.complete (tf : TransferDraft) : Bool :=
  tf.from ≠ "" && tf.«to» ≠ "" && tf.amount ≠ "" && tf.currency ≠ "" && tf.txId ≠ ""

/-- The guard of `submitPay`, negated: every required field is set. -/
def PaymentDraft.complete (pf : PaymentDraft) : Bool :=
  pf.from ≠ "" && pf.merchantId ≠ "" && pf.amount ≠ "" && pf.currency ≠ "" && pf.txId ≠ ""

/-- The text of the alert for an incomplete transfer. -/
def transferIncomplete : String := "请填写完整转账信息"

/-- The text of the alert for an incomplete payment. -/
def payIncomplete : String := "请填写完整支付信息"

/-- The text of the alert for an accepted transfer. -/
def transferDone : String := "转账成功！"

/-- The text of the alert for an accepted payment. -/
def payDone : String := "支付成功！"

/-- The text of the alert for a rejected submission. -/
def failureText (error : JVal) : String :=
  "失败：" ++ (if error.truthy then error.toStr else "unknown")

/-- The handler `submitTransfer` up to its first `await`. -/
def submitTransfer (s : Sys) : Sys :=
  if s.ui.tf.complete then s.issue (.postTransfer s.ui.tf)
  else s.alert transferIncomplete

/-- The handler `submitPay` up to its first `await`. -/
def submitPay (s : Sys) : Sys :=
  if s.ui.pf.complete then s.issue (.postPay s.ui.pf)
  else s.alert payIncomplete

/-- The rest of `submitTransfer` and `submitPay` after the two `await`s, for a
reply whose body parsed: `done` is the success text, `sel` and `src` are the
`selected` and the draft's `from` the closure holds. -/
def afterPost (s : Sys) (done : String) (sel src : String) (ok : Bool) (j : PostBody) : Sys :=
  if ok then
    let s1 := s.alert done
    if sel = src then s1.issue (.getBalance sel) else s1
  else
    match j with
    | .null => s
    | .value error => s.alert (failureText error)

/-- The promise chain of the request rejects (`fetch` or `r.json()` throws).
Only the chain of the transactions effect has a `finally`; no chain has a
`catch`, and the submit handlers have no `try`. -/
def rejected (s : Sys) : Req → Sys
  | .getTransactions _ => { s with ui := { s.ui with loading := false } }
  | _ => s

/-- Settling the request `p` with the reply `r`, in the state from which `p`
has been removed. `none` when the reply has not the shape of the endpoint. -/
def resolve (s : Sys) (p : Pending) (r : Reply) : Option Sys :=
  match r with
  | .networkError => some (rejected s p.req)
  | .unparseable _ => some (rejected s p.req)
  | .accounts l =>
    match p.req with
    | .getAccounts => some { s with ui := { s.ui with accounts := l } }
    | _ => none
  | .balance v =>
    match p.req with
    | .getBalance _ => some { s with ui := { s.ui with balance := v } }
    | _ => none
  | .transactions l =>
    match p.req with
    | .getTransactions _ => some { s with ui := { s.ui with rows := l, loading := false } }
    | _ => none
  | .merchants l =>
    match p.req with
    | .getMerchants _ => some { s with ui := { s.ui with merchList := l } }
    | _ => none
  | .posted ok j =>
    match p.req with
    | .postTransfer body => some (afterPost s transferDone p.selected body.from ok j)
    | .postPay body => some (afterPost s payDone p.selected body.from ok j)
    | _ => none

/-- The reply `r` to the `i`-th outstanding request arrives. -/
def deliver (s : Sys) (i : Nat) (r : Reply) : Option Sys :=
  match s.inflight[i]? with
  | none => none
  | some p => resolve { s with inflight := s.inflight.eraseIdx i } p r

/-- The callback of a timer runs at its deadline. -/
def fire (s : Sys) (t : Timer) : Sys :=
  s.issueAt t.deadline (.getMerchants t.q)

/-- The clock moves on by `dt`; the timers that come due run, oldest first. -/
def advance (s : Sys) (dt : Nat) : Sys :=
  let due := s.timers.filter (fun t => decide (t.deadline ≤ s.now + dt))
  let rest := s.timers.filter (fun t => ! decide (t.deadline ≤ s.now + dt))
  let s1 := due.foldl fire { s with timers := rest }
  { s1 with now := s.now + dt }

/-- One event, run to quiescence. `none` when the event cannot happen: the
suggestion is not on screen, no such request is outstanding, or the reply is
not one the endpoint gives. -/
def step (up : String → String) (s : Sys) : Ev → Option Sys
  | .setSelected v => some (setSelected s v)
  | .setCid v => some (setCid s v)
  | .refresh => some (refresh s)
  | .setMerchQuery v => some (setMerchQuery s v)
  | .setTf f v => some (setTf up s f v)
  | .setPf f v => some (setPf up s f v)
  | .clickMerchant m => if m ∈ s.ui.merchList then some (clickMerchant s m) else none
  | .submitTransfer => some (submitTransfer s)
  | .submitPay => some (submitPay s)
  | .deliver i r => deliver s i r
  | .advance dt => some (advance s dt)

/-- A sequence of events from `s`. -/
def run (up : String → String) (s : Sys) : List Ev → Option Sys
  | [] => some s
  | e :: es => (step up s e).bind (fun s1 => run up s1 es)

/-- The states the component can be in. -/
inductive Reachable (up : String → String) : Sys → Prop where
  | mount : Reachable up mount
  | step {s s1 : Sys} (e : Ev) : Reachable up s → step up s e = some s1 → Reachable up s1

/-- The events of a burst of typing after its first change: each `(dt, v)` is
a change of the search text to `v` that comes `dt` after the previous change. -/
def pauses : List (Nat × String) → List Ev
  | [] => []
  | (dt, v) :: rest => .advance dt :: .setMerchQuery v :: pauses rest

/-- A burst of typing in the search box: a first change to `v0`, then `rest`. -/
def keystrokes (v0 : String) (rest : List (Nat × String)) : List Ev :=
  .setMerchQuery v0 :: pauses rest

/-! ## Scenarios

Concrete runs of the machine, with `upperLatin1` for `toUpperCase`; every
input of the runs is below U+0100, where the two agree. -/

/-- The search text `Ac` was typed, the lookup went out after the quiet period
and its reply listed one merchant. -/
def afterSearch : Sys :=
  (run upperLatin1 mount
    [.setMerchQuery "Ac", .advance 250, .deliver 2 (.merchants [⟨"M1", "Acme"⟩])]).getD mount

/-- The account list arrived, `A100` was selected and its balance `42.50`
arrived, and the transfer form was filled in. -/
def readyToSubmit : Sys :=
  (run upperLatin1 mount
    [.deliver 0 (.accounts [⟨"A100", .num "42.5"⟩, ⟨"A200", .num "0"⟩]),
      .setSelected "A100", .deliver 1 (.balance (.num "42.5")),
      .setTf .from "A100", .setTf .«to» "A200", .setTf .amount "10",
      .setTf .currency "usd", .setTf .txId "T1"]).getD mount

/-- The filled-in transfer was submitted and its request is outstanding. -/
def submitted : Sys :=
  (step upperLatin1 readyToSubmit .submitTransfer).getD mount

/-- Every key changed while the request for its previous value was
outstanding: the selection went from `A100` to `A200`, the customer id from
`C001` to `C002`, the search text from `a` (looked up) to `b`. -/
def keysMoved : Sys :=
  (run upperLatin1 mount
    [.setSelected "A100", .setSelected "A200", .setCid "C002",
      .setMerchQuery "a", .advance 250, .setMerchQuery "b"]).getD mount

/-- The transactions of customer `C001` arrived. -/
def rowsLoaded : Sys :=
  (step upperLatin1 mount
    (.deliver 1 (.transactions
      [⟨"transfer", "A100", "A200", .num "10", "USD", "ui", "2024-01-01"⟩]))).getD mount

/-- The submitted transfer is still outstanding and the selection has moved
on from `A100` to `A200`. -/
def selectionMoved : Sys :=
  (step upperLatin1 submitted (.setSelected "A200")).getD mount

/-- Some fields of both drafts were typed into: the transfer currency as
`eur`, the payment currency as `straße`, the payment source as `A100`. -/
def draftsEdited : Sys :=
  (run upperLatin1 mount
    [.setTf .currency "eur", .setPf .currency "straße", .setPf .from "A100"]).getD mount

/-- The search text `Ac` was looked up and the reply listed two merchants, the
second with blanks around its name. -/
def spacedSearch : Sys :=
  (run upperLatin1 mount
    [.setMerchQuery "Ac", .advance 250,
      .deliver 2 (.merchants [⟨"M1", "Acme"⟩, ⟨"M2", " Acme Tools "⟩])]).getD mount

/-! ## Basic facts about the operations -/

theorem issueAt_ui (s : Sys) (t : Nat) (r : Req) : (s.issueAt t r).ui = s.ui := rfl

theorem foldl_fire_log (l : List Timer) (s : Sys) :
    (l.foldl fire s).log = s.log ++ l.map (fun t => (t.deadline, Req.getMerchants t.q)) := by
  induction l generalizing s with
  | nil => simp
  | cons t ts ih => simp [List.foldl_cons, ih, fire, Sys.issueAt]

theorem foldl_fire_ui (l : List Timer) (s : Sys) : (l.foldl fire s).ui = s.ui := by
  induction l generalizing s with
  | nil => rfl
  | cons t ts ih => simp [List.foldl_cons, ih, fire, Sys.issueAt]

theorem foldl_fire_inflight (l : List Timer) (s : Sys) :
    (l.foldl fire s).inflight =
      s.inflight ++ l.map (fun t => (⟨Req.getMerchants t.q, s.ui.selected⟩ : Pending)) := by
  induction l generalizing s with
  | nil => simp
  | cons t ts ih => simp [List.foldl_cons, ih, fire, Sys.issueAt]

theorem foldl_fire_timers (l : List Timer) (s : Sys) : (l.foldl fire s).timers = s.timers := by
  induction l generalizing s with
  | nil => rfl
  | cons t ts ih => simp [List.foldl_cons, ih, fire, Sys.issueAt]

theorem foldl_fire_cleanup (l : List Timer) (s : Sys) :
    (l.foldl fire s).cleanup = s.cleanup := by
  induction l generalizing s with
  | nil => rfl
  | cons t ts ih => simp [List.foldl_cons, ih, fire, Sys.issueAt]

theorem foldl_fire_alerts (l : List Timer) (s : Sys) : (l.foldl fire s).alerts = s.alerts := by
  induction l generalizing s with
  | nil => rfl
  | cons t ts ih => simp [List.foldl_cons, ih, fire, Sys.issueAt]

theorem foldl_fire_nextTimer (l : List Timer) (s : Sys) :
    (l.foldl fire s).nextTimer = s.nextTimer := by
  induction l generalizing s with
  | nil => rfl
  | cons t ts ih => simp [List.foldl_cons, ih, fire, Sys.issueAt]

theorem advance_ui (s : Sys) (dt : Nat) : (advance s dt).ui = s.ui := by
  simp [advance, foldl_fire_ui]

theorem advance_log (s : Sys) (dt : Nat) :
    (advance s dt).log = s.log ++
      (s.timers.filter (fun t => decide (t.deadline ≤ s.now + dt))).map
        (fun t => (t.deadline, Req.getMerchants t.q)) := by
  simp [advance, foldl_fire_log]

theorem advance_timers (s : Sys) (dt : Nat) :
    (advance s dt).timers = s.timers.filter (fun t => ! decide (t.deadline ≤ s.now + dt)) := by
  simp [advance, foldl_fire_timers]

theorem advance_cleanup (s : Sys) (dt : Nat) : (advance s dt).cleanup = s.cleanup := by
  simp [advance, foldl_fire_cleanup]

theorem advance_now (s : Sys) (dt : Nat) : (advance s dt).now = s.now + dt := by
  simp [advance]

theorem advance_alerts (s : Sys) (dt : Nat) : (advance s dt).alerts = s.alerts := by
  simp [advance, foldl_fire_alerts]

theorem advance_inflight (s : Sys) (dt : Nat) :
    (advance s dt).inflight = s.inflight ++
      (s.timers.filter (fun t => decide (t.deadline ≤ s.now + dt))).map
        (fun t => (⟨Req.getMerchants t.q, s.ui.selected⟩ : Pending)) := by
  simp [advance, foldl_fire_inflight]

theorem toNat_ofNat_small (m : Nat) (h : m < 0xD800) : (Char.ofNat m).toNat = m := by
  have hv : m.isValidChar := Or.inl h
  simp only [Char.ofNat, Char.toNat, dif_pos hv, Char.ofNatAux]
  rfl

theorem upperChar_fixed (c : Char)
    (h : ¬ (0x61 ≤ c.toNat ∧ c.toNat ≤ 0x7A) ∧ c.toNat ≠ 0xB5 ∧ c.toNat ≠ 0xDF ∧
      ¬ (0xE0 ≤ c.toNat ∧ c.toNat ≤ 0xFE ∧ c.toNat ≠ 0xF7) ∧ c.toNat ≠ 0xFF) :
    upperChar c = [c] := by
  obtain ⟨h1, h2, h3, h4, h5⟩ := h
  unfold upperChar
  simp only
  rw [if_neg h1, if_neg h2, if_neg h3, if_neg h4, if_neg h5]

theorem upperChar_upperChar (c : Char) : (upperChar c).flatMap upperChar = upperChar c := by
  unfold upperChar
  simp only
  split_ifs with h1 h2 h3 h4 h5
  · have hn := toNat_ofNat_small (c.toNat - 32) (by omega)
    simp only [List.flatMap_cons, List.flatMap_nil, List.append_nil]
    exact upperChar_fixed _ (by rw [hn]; omega)
  · have hn := toNat_ofNat_small 0x39C (by omega)
    simp only [List.flatMap_cons, List.flatMap_nil, List.append_nil]
    exact upperChar_fixed _ (by rw [hn]; omega)
  · decide
  · have hn := toNat_ofNat_small (c.toNat - 32) (by omega)
    simp only [List.flatMap_cons, List.flatMap_nil, List.append_nil]
    exact upperChar_fixed _ (by rw [hn]; omega)
  · have hn := toNat_ofNat_small 0x178 (by omega)
    simp only [List.flatMap_cons, List.flatMap_nil, List.append_nil]
    exact upperChar_fixed _ (by rw [hn]; omega)
  · simp only [List.flatMap_cons, List.flatMap_nil, List.append_nil]
    exact upperChar_fixed c ⟨h1, h2, h3, h4, h5⟩

theorem upperLatin1_idem (x : String) : upperLatin1 (upperLatin1 x) = upperLatin1 x := by
  simp only [upperLatin1, List.flatMap_assoc, upperChar_upperChar]

/-! ## What settling a request leaves alone -/

theorem afterPost_frame (s : Sys) (done sel src : String) (ok : Bool) (j : PostBody) :
    (afterPost s done sel src ok j).ui = s.ui ∧
    (afterPost s done sel src ok j).timers = s.timers ∧
    (afterPost s done sel src ok j).cleanup = s.cleanup ∧
    (afterPost s done sel src ok j).now = s.now ∧
    (afterPost s done sel src ok j).nextTimer = s.nextTimer := by
  unfold afterPost
  cases ok <;> cases j <;> simp [Sys.alert, Sys.issue, Sys.issueAt] <;> split_ifs <;> simp

theorem afterPost_log (s : Sys) (done sel src : String) (ok : Bool) (j : PostBody) :
    (afterPost s done sel src ok j).log =
      s.log ++ (if ok = true ∧ sel = src then [(s.now, Req.getBalance sel)] else []) := by
  unfold afterPost
  cases ok <;> cases j <;> simp [Sys.alert, Sys.issue, Sys.issueAt] <;> split_ifs <;> simp

theorem afterPost_alerts (s : Sys) (done sel src : String) (ok : Bool) (j : PostBody) :
    (afterPost s done sel src ok j).alerts =
      s.alerts ++ (if ok = true then [done] else
        match j with
        | .null => []
        | .value error => [failureText error]) := by
  unfold afterPost
  cases ok <;> cases j <;> simp [Sys.alert, Sys.issue, Sys.issueAt] <;> split_ifs <;> simp

theorem resolve_frame {s s1 : Sys} {p : Pending} {r : Reply} (h : resolve s p r = some s1) :
    s1.ui.tf = s.ui.tf ∧ s1.ui.pf = s.ui.pf ∧ s1.ui.selected = s.ui.selected ∧
    s1.ui.cid = s.ui.cid ∧ s1.ui.merchQuery = s.ui.merchQuery ∧
    s1.timers = s.timers ∧ s1.cleanup = s.cleanup ∧ s1.now = s.now ∧
    s1.nextTimer = s.nextTimer := by
  obtain ⟨req, sel⟩ := p
  cases req <;> cases r <;> simp [resolve, rejected] at h <;> subst h <;>
    simp [afterPost_frame]

theorem resolve_log {s s1 : Sys} {p : Pending} {r : Reply} (h : resolve s p r = some s1) :
    ∃ d, s1.log = s.log ++ d ∧ ∀ t c, (t, Req.getTransactions c) ∉ d := by
  obtain ⟨req, sel⟩ := p
  cases req <;> cases r <;> simp [resolve, rejected] at h <;> subst h <;>
    first
    | exact ⟨_, afterPost_log _ _ _ _ _ _, by intro t c; split_ifs <;> simp⟩
    | exact ⟨[], by simp, by simp⟩

theorem deliver_frame {s s1 : Sys} {i : Nat} {r : Reply} (h : deliver s i r = some s1) :
    s1.ui.tf = s.ui.tf ∧ s1.ui.pf = s.ui.pf ∧ s1.ui.selected = s.ui.selected ∧
    s1.ui.cid = s.ui.cid ∧ s1.ui.merchQuery = s.ui.merchQuery ∧
    s1.timers = s.timers ∧ s1.cleanup = s.cleanup ∧ s1.now = s.now ∧
    s1.nextTimer = s.nextTimer := by
  unfold deliver at h
  cases hp : s.inflight[i]? with
  | none => simp [hp] at h
  | some p =>
    simp only [hp] at h
    simpa using resolve_frame h

theorem merchantCleanup_ui (s : Sys) : (merchantCleanup s).ui = s.ui := by
  unfold merchantCleanup
  cases s.cleanup <;> rfl

theorem merchantEffect_drafts (s : Sys) :
    (merchantEffect s).ui.tf = s.ui.tf ∧ (merchantEffect s).ui.pf = s.ui.pf := by
  unfold merchantEffect
  simp only
  split_ifs <;> simp

theorem step_currency (up : String → String) (hidem : ∀ x, up (up x) = up x) {s s1 : Sys}
    (e : Ev) (h : step up s e = some s1)
    (hs : up s.ui.tf.currency = s.ui.tf.currency ∧ up s.ui.pf.currency = s.ui.pf.currency) :
    up s1.ui.tf.currency = s1.ui.tf.currency ∧ up s1.ui.pf.currency = s1.ui.pf.currency := by
  cases e with
  | setSelected v =>
    simp only [step, Option.some.injEq] at h; subst h
    unfold setSelected balanceEffect
    split_ifs <;> simpa [Sys.issue, Sys.issueAt] using hs
  | setCid v =>
    simp only [step, Option.some.injEq] at h; subst h
    unfold setCid transactionsEffect
    split_ifs <;> simpa [Sys.issue, Sys.issueAt] using hs
  | refresh =>
    simp only [step, Option.some.injEq] at h; subst h
    unfold refresh setCid transactionsEffect
    split_ifs <;> simpa [Sys.issue, Sys.issueAt] using hs
  | setMerchQuery v =>
    simp only [step, Option.some.injEq] at h; subst h
    unfold setMerchQuery
    split_ifs
    · exact hs
    · simpa [merchantEffect_drafts, merchantCleanup_ui] using hs
  | setTf f v =>
    simp only [step, Option.some.injEq] at h; subst h
    cases f <;> simp [setTf, updateTf, hs, hidem]
  | setPf f v =>
    simp only [step, Option.some.injEq] at h; subst h
    cases f <;> simp [setPf, updatePf, hs, hidem]
  | clickMerchant m =>
    simp only [step] at h
    split_ifs at h
    simp only [Option.some.injEq] at h; subst h
    unfold clickMerchant
    simp only
    split_ifs
    · simpa using hs
    · simpa [merchantEffect_drafts, merchantCleanup_ui] using hs
  | submitTransfer =>
    simp only [step, Option.some.injEq] at h; subst h
    unfold submitTransfer
    split_ifs <;> simpa [Sys.issue, Sys.issueAt, Sys.alert] using hs
  | submitPay =>
    simp only [step, Option.some.injEq] at h; subst h
    unfold submitPay
    split_ifs <;> simpa [Sys.issue, Sys.issueAt, Sys.alert] using hs
  | deliver i r =>
    simp only [step] at h
    obtain ⟨h1, h2, -⟩ := deliver_frame h
    rw [h1, h2]; exact hs
  | advance dt =>
    simp only [step, Option.some.injEq] at h; subst h
    simpa [advance_ui] using hs

theorem reachable_currency (up : String → String) (hidem : ∀ x, up (up x) = up x)
    (husd : up "USD" = "USD") {s : Sys} (h : Reachable up s) :
    up s.ui.tf.currency = s.ui.tf.currency ∧ up s.ui.pf.currency = s.ui.pf.currency := by
  induction h with
  | mount => exact ⟨husd, husd⟩
  | step e _ hstep ih => exact step_currency up hidem e hstep ih

theorem clickMerchant_effect (s : Sys) (m : Merchant) :
    (clickMerchant s m).ui = { s.ui with
        pf := { s.ui.pf with merchantId := m.merchantId }
        merchQuery := m.name
        merchList := [] } ∧
    (clickMerchant s m).log = s.log ∧ (clickMerchant s m).inflight = s.inflight ∧
    (clickMerchant s m).alerts = s.alerts ∧ (clickMerchant s m).now = s.now := by
  unfold clickMerchant
  simp only
  split_ifs with h1
  · simp
  · unfold merchantEffect
    simp only [merchantCleanup_ui]
    split_ifs <;> cases hc : s.cleanup <;> simp [merchantCleanup, hc]

/-! ## The debounce timer -/

theorem merchantCleanup_frame (s : Sys) :
    (merchantCleanup s).log = s.log ∧ (merchantCleanup s).now = s.now ∧
    (merchantCleanup s).nextTimer = s.nextTimer ∧ (merchantCleanup s).inflight = s.inflight ∧
    (merchantCleanup s).alerts = s.alerts := by
  unfold merchantCleanup
  cases s.cleanup <;> simp

theorem cleanup_clears (s : Sys) (hinv : ∀ t ∈ s.timers, s.cleanup = some t.id) :
    (merchantCleanup s).timers = [] := by
  unfold merchantCleanup
  cases hc : s.cleanup with
  | none =>
    simp only
    cases ht : s.timers with
    | nil => rfl
    | cons t ts =>
      have := hinv t (by simp [ht])
      simp [hc] at this
  | some c =>
    simp only [List.filter_eq_nil_iff]
    intro t ht
    have := hinv t ht
    rw [hc] at this
    simp only [Option.some.injEq] at this
    simp [this]

theorem retarget (s : Sys) (hinv : ∀ t ∈ s.timers, s.cleanup = some t.id) :
    (merchantEffect (merchantCleanup s)).timers =
      (if trim s.ui.merchQuery = "" then []
        else [⟨s.nextTimer, s.now + 250, trim s.ui.merchQuery⟩]) ∧
    (merchantEffect (merchantCleanup s)).log = s.log ∧
    (merchantEffect (merchantCleanup s)).now = s.now ∧
    (merchantEffect (merchantCleanup s)).inflight = s.inflight ∧
    (merchantEffect (merchantCleanup s)).ui.merchQuery = s.ui.merchQuery ∧
    (merchantEffect (merchantCleanup s)).ui.selected = s.ui.selected ∧
    (trim s.ui.merchQuery = "" → (merchantEffect (merchantCleanup s)).ui.merchList = []) ∧
    (∀ t ∈ (merchantEffect (merchantCleanup s)).timers,
      (merchantEffect (merchantCleanup s)).cleanup = some t.id) := by
  have hc := cleanup_clears s hinv
  obtain ⟨f1, f2, f3, f4, -⟩ := merchantCleanup_frame s
  have hu := merchantCleanup_ui s
  unfold merchantEffect
  simp only [hu]
  split_ifs with hq
  · simp [hc, f1, f2, f4, hu]
  · simp [hc, f1, f2, f3, f4, hu, hq]

theorem setMerchQuery_changed (s : Sys) (v : String) (hv : v ≠ s.ui.merchQuery)
    (hinv : ∀ t ∈ s.timers, s.cleanup = some t.id) :
    (setMerchQuery s v).timers =
      (if trim v = "" then [] else [⟨s.nextTimer, s.now + 250, trim v⟩]) ∧
    (setMerchQuery s v).log = s.log ∧
    (setMerchQuery s v).now = s.now ∧
    (setMerchQuery s v).inflight = s.inflight ∧
    (setMerchQuery s v).ui.merchQuery = v ∧
    (setMerchQuery s v).ui.selected = s.ui.selected ∧
    (trim v = "" → (setMerchQuery s v).ui.merchList = []) ∧
    (∀ t ∈ (setMerchQuery s v).timers, (setMerchQuery s v).cleanup = some t.id) := by
  unfold setMerchQuery
  rw [if_neg hv]
  exact retarget { s with ui := { s.ui with merchQuery := v } } hinv

theorem clickMerchant_changed (s : Sys) (m : Merchant) (hv : m.name ≠ s.ui.merchQuery)
    (hinv : ∀ t ∈ s.timers, s.cleanup = some t.id) :
    (clickMerchant s m).timers =
      (if trim m.name = "" then [] else [⟨s.nextTimer, s.now + 250, trim m.name⟩]) ∧
    (clickMerchant s m).ui.selected = s.ui.selected ∧
    (∀ t ∈ (clickMerchant s m).timers, (clickMerchant s m).cleanup = some t.id) := by
  unfold clickMerchant
  simp only
  rw [if_neg hv]
  obtain ⟨h1, -, -, -, -, h6, -, h8⟩ := retarget { s with ui := { s.ui with
    pf := { s.ui.pf with merchantId := m.merchantId }
    merchQuery := m.name
    merchList := [] } } hinv
  exact ⟨h1, h6, h8⟩

theorem timerInv_step (up : String → String) {s s1 : Sys} (e : Ev)
    (h : step up s e = some s1) (hinv : ∀ t ∈ s.timers, s.cleanup = some t.id) :
    ∀ t ∈ s1.timers, s1.cleanup = some t.id := by
  cases e with
  | setSelected v =>
    simp only [step, Option.some.injEq] at h; subst h
    unfold setSelected balanceEffect
    split_ifs <;> simpa [Sys.issue, Sys.issueAt] using hinv
  | setCid v =>
    simp only [step, Option.some.injEq] at h; subst h
    unfold setCid transactionsEffect
    split_ifs <;> simpa [Sys.issue, Sys.issueAt] using hinv
  | refresh =>
    simp only [step, Option.some.injEq] at h; subst h
    unfold refresh setCid transactionsEffect
    split_ifs <;> simpa [Sys.issue, Sys.issueAt] using hinv
  | setMerchQuery v =>
    simp only [step, Option.some.injEq] at h; subst h
    by_cases hv : v = s.ui.merchQuery
    · simpa [setMerchQuery, hv] using hinv
    · exact (setMerchQuery_changed s v hv hinv).2.2.2.2.2.2.2
  | setTf f v =>
    simp only [step, Option.some.injEq] at h; subst h
    simpa [setTf] using hinv
  | setPf f v =>
    simp only [step, Option.some.injEq] at h; subst h
    simpa [setPf] using hinv
  | clickMerchant m =>
    simp only [step] at h
    split_ifs at h
    simp only [Option.some.injEq] at h; subst h
    by_cases hv : m.name = s.ui.merchQuery
    · simpa [clickMerchant, hv] using hinv
    · exact (clickMerchant_changed s m hv hinv).2.2
  | submitTransfer =>
    simp only [step, Option.some.injEq] at h; subst h
    unfold submitTransfer
    split_ifs <;> simpa [Sys.issue, Sys.issueAt, Sys.alert] using hinv
  | submitPay =>
    simp only [step, Option.some.injEq] at h; subst h
    unfold submitPay
    split_ifs <;> simpa [Sys.issue, Sys.issueAt, Sys.alert] using hinv
  | deliver i r =>
    simp only [step] at h
    obtain ⟨-, -, -, -, -, h6, h7, -⟩ := deliver_frame h
    rw [h6, h7]; exact hinv
  | advance dt =>
    simp only [step, Option.some.injEq] at h; subst h
    intro t ht
    rw [advance_timers] at ht
    rw [advance_cleanup]
    exact hinv t (List.mem_of_mem_filter ht)

theorem reachable_timerInv (up : String → String) {s : Sys} (h : Reachable up s) :
    ∀ t ∈ s.timers, s.cleanup = some t.id := by
  induction h with
  | mount => intro t ht; simp [mount, merchantEffect, transactionsEffect, balanceEffect,
      accountsEffect, Sys.issue, Sys.issueAt, initial, trim] at ht
  | step e _ hstep ih => exact timerInv_step up e hstep ih

theorem advance_not_due (s : Sys) (dt : Nat) (h : ∀ t ∈ s.timers, s.now + dt < t.deadline) :
    (advance s dt).log = s.log ∧ (advance s dt).timers = s.timers ∧
    (advance s dt).inflight = s.inflight := by
  have hdue : s.timers.filter (fun t => decide (t.deadline ≤ s.now + dt)) = [] := by
    simp only [List.filter_eq_nil_iff, decide_eq_true_eq, not_le]
    exact h
  have hrest : s.timers.filter (fun t => ! decide (t.deadline ≤ s.now + dt)) = s.timers := by
    simp only [List.filter_eq_self, Bool.not_eq_true', decide_eq_false_iff_not, not_le]
    exact h
  rw [advance_log, advance_timers, advance_inflight, hdue, hrest]
  simp

theorem advance_due (s : Sys) (dt : Nat) (h : ∀ t ∈ s.timers, t.deadline ≤ s.now + dt) :
    (advance s dt).log = s.log ++ s.timers.map (fun t => (t.deadline, Req.getMerchants t.q)) ∧
    (advance s dt).timers = [] ∧
    (advance s dt).inflight =
      s.inflight ++ s.timers.map (fun t => (⟨Req.getMerchants t.q, s.ui.selected⟩ : Pending)) := by
  have hdue : s.timers.filter (fun t => decide (t.deadline ≤ s.now + dt)) = s.timers := by
    simp only [List.filter_eq_self, decide_eq_true_eq]
    exact h
  have hrest : s.timers.filter (fun t => ! decide (t.deadline ≤ s.now + dt)) = [] := by
    simp only [List.filter_eq_nil_iff, Bool.not_eq_true', decide_eq_false_iff_not, not_not]
    exact h
  rw [advance_log, advance_timers, advance_inflight, hdue, hrest]
  simp

theorem burst (up : String → String) (rest : List (Nat × String)) :
    ∀ (s : Sys) (v0 : String), (∀ t ∈ s.timers, s.cleanup = some t.id) →
      List.Chain (fun a b => a ≠ b) s.ui.merchQuery (v0 :: rest.map Prod.snd) →
      (∀ x ∈ rest, x.1 < 250) →
      ∃ s1 id, run up s (keystrokes v0 rest) = some s1 ∧
        (∀ t ∈ s1.timers, s1.cleanup = some t.id) ∧
        s1.ui.merchQuery = (rest.map Prod.snd).getLastD v0 ∧
        s1.now = s.now + (rest.map Prod.fst).sum ∧
        s1.log = s.log ∧ s1.inflight = s.inflight ∧ s1.ui.selected = s.ui.selected ∧
        s1.timers = (if trim ((rest.map Prod.snd).getLastD v0) = "" then []
          else [⟨id, s1.now + 250, trim ((rest.map Prod.snd).getLastD v0)⟩]) ∧
        (trim ((rest.map Prod.snd).getLastD v0) = "" → s1.ui.merchList = []) := by
  induction rest with
  | nil =>
    intro s v0 hinv hch _
    have hv : v0 ≠ s.ui.merchQuery := by
      simp only [List.map_nil, List.chain_cons] at hch
      exact fun h => hch.1 h.symm
    obtain ⟨h1, h2, h3, h4, h5, h6, h7, h8⟩ := setMerchQuery_changed s v0 hv hinv
    refine ⟨setMerchQuery s v0, s.nextTimer, by simp [keystrokes, pauses, run, step], h8, ?_, ?_,
      h2, h4, h6, ?_, ?_⟩
    · simpa using h5
    · simpa using h3
    · simpa [h3] using h1
    · simpa using h7
  | cons x rest ih =>
    intro s v0 hinv hch hfast
    obtain ⟨dt, v⟩ := x
    have hv : v0 ≠ s.ui.merchQuery := by
      simp only [List.chain_cons] at hch
      exact fun h => hch.1 h.symm
    have hch2 : List.Chain (fun a b => a ≠ b) v0 (v :: rest.map Prod.snd) := by
      simp only [List.map_cons, List.chain_cons] at hch
      simp only [List.chain_cons]
      exact hch.2
    have hdt : dt < 250 := hfast (dt, v) (by simp)
    obtain ⟨h1, h2, h3, h4, h5, h6, h7, h8⟩ := setMerchQuery_changed s v0 hv hinv
    have hnd : ∀ t ∈ (setMerchQuery s v0).timers, (setMerchQuery s v0).now + dt < t.deadline := by
      intro t ht
      rw [h1] at ht
      split_ifs at ht
      · simp at ht
      · simp only [List.mem_singleton] at ht
        subst ht
        simp only [h3]
        omega
    obtain ⟨a1, a2, a3⟩ := advance_not_due (setMerchQuery s v0) dt hnd
    have hinv2 : ∀ t ∈ (advance (setMerchQuery s v0) dt).timers,
        (advance (setMerchQuery s v0) dt).cleanup = some t.id := by
      rw [a2, advance_cleanup]; exact h8
    have hq2 : (advance (setMerchQuery s v0) dt).ui.merchQuery = v0 := by
      rw [advance_ui]; exact h5
    obtain ⟨s1, id, r1, r2, r3, r4, r5, r6, r7, r8, r9⟩ :=
      ih (advance (setMerchQuery s v0) dt) v hinv2 (by rw [hq2]; exact hch2)
        (fun y hy => hfast y (List.mem_cons_of_mem _ hy))
    have hl : (((dt, v) :: rest).map Prod.snd).getLastD v0 = (rest.map Prod.snd).getLastD v :=
      List.getLastD_cons v0 v (rest.map Prod.snd)
    rw [hl]
    refine ⟨s1, id, ?_, r2, r3, ?_, ?_, ?_, ?_, r8, r9⟩
    · simpa [keystrokes, pauses, run, step] using r1
    · rw [r4, advance_now, h3]
      simp only [List.map_cons, List.sum_cons]
      omega
    · rw [r5, a1, h2]
    · rw [r6, a3, h4]
    · rw [r7, advance_ui, h6]

theorem run_reachable (up : String → String) (es : List Ev) {s s1 : Sys}
    (hs : Reachable up s) (h : run up s es = some s1) : Reachable up s1 := by
  induction es generalizing s with
  | nil =>
    simp only [run, Option.some.injEq] at h
    exact h ▸ hs
  | cons e es ih =>
    simp only [run] at h
    cases he : step up s e with
    | none => simp [he] at h
    | some s2 =>
      rw [he] at h
      exact ih (Reachable.step e hs he) h

theorem afterSearch_reachable : Reachable upperLatin1 afterSearch :=
  run_reachable upperLatin1
    [.setMerchQuery "Ac", .advance 250, .deliver 2 (.merchants [⟨"M1", "Acme"⟩])]
    Reachable.mount (by decide)

theorem draftsEdited_reachable : Reachable upperLatin1 draftsEdited :=
  run_reachable upperLatin1
    [.setTf .currency "eur", .setPf .currency "straße", .setPf .from "A100"]
    Reachable.mount (by decide)

theorem spacedSearch_reachable : Reachable upperLatin1 spacedSearch :=
  run_reachable upperLatin1
    [.setMerchQuery "Ac", .advance 250,
      .deliver 2 (.merchants [⟨"M1", "Acme"⟩, ⟨"M2", " Acme Tools "⟩])]
    Reachable.mount (by decide)

theorem deliver_rejected (up : String → String) (s : Sys) (i : Nat) (p : Pending)
    (hp : s.inflight[i]? = some p) (r : Reply)
    (hr : r = .networkError ∨ ∃ ok, r = .unparseable ok) :
    step up s (.deliver i r) =
      some (rejected { s with inflight := s.inflight.eraseIdx i } p.req) := by
  rcases hr with rfl | ⟨ok, rfl⟩ <;> simp only [step, deliver, hp, resolve]

theorem rejected_frame (s : Sys) (r : Req) :
    (rejected s r).log = s.log ∧ (rejected s r).alerts = s.alerts ∧
    (rejected s r).ui.merchList = s.ui.merchList ∧
    (rejected s r).ui.balance = s.ui.balance := by
  cases r <;> simp [rejected]

theorem deliver_postTransfer (up : String → String) (s : Sys) (i : Nat) (body : TransferDraft)
    (sel : String) (hp : s.inflight[i]? = some ⟨.postTransfer body, sel⟩) (ok : Bool)
    (j : PostBody) :
    step up s (.deliver i (.posted ok j)) = some
      (afterPost { s with inflight := s.inflight.eraseIdx i } transferDone sel body.from ok j) := by
  simp only [step, deliver, hp, resolve]

theorem deliver_postPay (up : String → String) (s : Sys) (i : Nat) (body : PaymentDraft)
    (sel : String) (hp : s.inflight[i]? = some ⟨.postPay body, sel⟩) (ok : Bool)
    (j : PostBody) :
    step up s (.deliver i (.posted ok j)) = some
      (afterPost { s with inflight := s.inflight.eraseIdx i } payDone sel body.from ok j) := by
  simp only [step, deliver, hp, resolve]

/-! ## Claims -/

/-- C3: a submission issues a request exactly when `from`, the destination,
`amount`, `currency` and `txId` are all non-empty. If one of them is empty the
only thing that happens is the missing-field alert: nothing is logged as
issued and every other part of the state is as before. If all are non-empty,
one `POST` to the endpoint of the form is issued whose body is the whole draft,
`channel` included, and `channel` takes no part in the test. -/
theorem submit_issues_request_iff_complete (up : String → String) (s : Sys) :
    step up s .submitTransfer = some
      (if s.ui.tf.from ≠ "" ∧ s.ui.tf.«to» ≠ "" ∧ s.ui.tf.amount ≠ "" ∧
          s.ui.tf.currency ≠ "" ∧ s.ui.tf.txId ≠ "" then
        { s with
          log := s.log ++ [(s.now, .postTransfer s.ui.tf)]
          inflight := s.inflight ++ [⟨.postTransfer s.ui.tf, s.ui.selected⟩] }
      else { s with alerts := s.alerts ++ [transferIncomplete] }) ∧
    step up s .submitPay = some
      (if s.ui.pf.from ≠ "" ∧ s.ui.pf.merchantId ≠ "" ∧ s.ui.pf.amount ≠ "" ∧
          s.ui.pf.currency ≠ "" ∧ s.ui.pf.txId ≠ "" then
        { s with
          log := s.log ++ [(s.now, .postPay s.ui.pf)]
          inflight := s.inflight ++ [⟨.postPay s.ui.pf, s.ui.selected⟩] }
      else { s with alerts := s.alerts ++ [payIncomplete] }) := by
  constructor
  · simp only [step, submitTransfer, TransferDraft.complete, Sys.issue, Sys.issueAt, Sys.alert]
    by_cases h : s.ui.tf.from ≠ "" ∧ s.ui.tf.«to» ≠ "" ∧ s.ui.tf.amount ≠ "" ∧
        s.ui.tf.currency ≠ "" ∧ s.ui.tf.txId ≠ ""
    · rw [if_pos h, if_pos (by simpa [and_assoc] using h)]
    · rw [if_neg h, if_neg (by simpa [and_assoc] using h)]
  · simp only [step, submitPay, PaymentDraft.complete, Sys.issue, Sys.issueAt, Sys.alert]
    by_cases h : s.ui.pf.from ≠ "" ∧ s.ui.pf.merchantId ≠ "" ∧ s.ui.pf.amount ≠ "" ∧
        s.ui.pf.currency ≠ "" ∧ s.ui.pf.txId ≠ ""
    · rw [if_pos h, if_pos (by simpa [and_assoc] using h)]
    · rw [if_neg h, if_neg (by simpa [and_assoc] using h)]

/-- C7: clicking a suggestion is one transition whose result has the payment
draft's `merchantId` set to the suggestion's id, the search text set to its
name and an empty suggestion list; the other fields of the payment draft, the
transfer draft, the selection, the balance, the customer id and the rows are
as before, and the click issues no request and raises no alert. -/
theorem click_sets_merchant_and_text (up : String → String) (s : Sys) (m : Merchant)
    (hm : m ∈ s.ui.merchList) :
    ∃ s1, step up s (.clickMerchant m) = some s1 ∧
      s1.ui = { s.ui with
        pf := { s.ui.pf with merchantId := m.merchantId }
        merchQuery := m.name
        merchList := [] } ∧
      s1.log = s.log ∧ s1.inflight = s.inflight ∧ s1.alerts = s.alerts := by
  obtain ⟨h1, h2, h3, h4, -⟩ := clickMerchant_effect s m
  exact ⟨clickMerchant s m, by simp [step, hm], h1, h2, h3, h4⟩

theorem click_sets_merchant_and_text_witness :
    ∃ s1, step upperLatin1 afterSearch (.clickMerchant ⟨"M1", "Acme"⟩) = some s1 ∧
      s1.ui = { afterSearch.ui with
        pf := { afterSearch.ui.pf with merchantId := "M1" }
        merchQuery := "Acme"
        merchList := [] } ∧
      s1.log = afterSearch.log ∧ s1.inflight = afterSearch.inflight ∧
      s1.alerts = afterSearch.alerts :=
  click_sets_merchant_and_text upperLatin1 afterSearch ⟨"M1", "Acme"⟩ (by decide)

/-- C8: updating a field of a draft yields a draft in which that field holds
the input (upper-cased when the field is `currency`) and every other field of
the draft is as before; nothing else in the state changes, so the other draft
is untouched, no request is issued and no alert is raised. With an idempotent
`toUpperCase` that fixes `USD`, the currency of both drafts is its own
upper-casing in every reachable state. -/
theorem field_update_is_a_merge (up : String → String) :
    (∀ (s : Sys) (f : TransferField) (v : String), ∃ s1,
      step up s (.setTf f v) = some s1 ∧
      s1 = { s with ui := { s.ui with tf := s1.ui.tf } } ∧
      s1.ui.tf.get f = (if f = .currency then up v else v) ∧
      ∀ g, g ≠ f → s1.ui.tf.get g = s.ui.tf.get g) ∧
    (∀ (s : Sys) (f : PaymentField) (v : String), ∃ s1,
      step up s (.setPf f v) = some s1 ∧
      s1 = { s with ui := { s.ui with pf := s1.ui.pf } } ∧
      s1.ui.pf.get f = (if f = .currency then up v else v) ∧
      ∀ g, g ≠ f → s1.ui.pf.get g = s.ui.pf.get g) ∧
    ((∀ x, up (up x) = up x) → up "USD" = "USD" → ∀ s : Sys, Reachable up s →
      up s.ui.tf.currency = s.ui.tf.currency ∧ up s.ui.pf.currency = s.ui.pf.currency) := by
  refine ⟨?_, ?_, ?_⟩
  · intro s f v
    refine ⟨setTf up s f v, rfl, rfl, ?_, ?_⟩
    · cases f <;> simp [setTf, updateTf, TransferDraft.get]
    · intro g hg
      cases f <;> cases g <;> simp_all [setTf, updateTf, TransferDraft.get]
  · intro s f v
    refine ⟨setPf up s f v, rfl, rfl, ?_, ?_⟩
    · cases f <;> simp [setPf, updatePf, PaymentDraft.get]
    · intro g hg
      cases f <;> cases g <;> simp_all [setPf, updatePf, PaymentDraft.get]
  · intro hidem husd s hs
    exact reachable_currency up hidem husd hs

theorem field_update_is_a_merge_witness :
    draftsEdited.ui.tf.currency = "EUR" ∧ draftsEdited.ui.pf.currency = "STRASSE" ∧
    upperLatin1 draftsEdited.ui.tf.currency = draftsEdited.ui.tf.currency ∧
    upperLatin1 draftsEdited.ui.pf.currency = draftsEdited.ui.pf.currency ∧
    (∃ s1, step upperLatin1 draftsEdited (.setTf .currency "gbp") = some s1 ∧
      s1.ui.tf.get .currency = "GBP" ∧
      s1.ui.tf.get .channel = draftsEdited.ui.tf.get .channel ∧
      s1.ui.pf = draftsEdited.ui.pf ∧ s1.log = draftsEdited.log ∧
      s1.alerts = draftsEdited.alerts) ∧
    (∃ s1, step upperLatin1 draftsEdited (.setPf .merchantId "M1") = some s1 ∧
      s1.ui.pf.get .merchantId = "M1" ∧
      s1.ui.pf.get .currency = "STRASSE" ∧ s1.ui.pf.get .from = "A100" ∧
      s1.ui.tf = draftsEdited.ui.tf ∧ s1.log = draftsEdited.log) ∧
    (∃ s1, step upperLatin1 draftsEdited (.setTf .currency "µÿàþ÷ª z") = some s1 ∧
      s1.ui.tf.get .currency = "ΜŸÀÞ÷ª Z") ∧
    (∃ s1, step upperLatin1 draftsEdited (.setTf .amount "straße") = some s1 ∧
      s1.ui.tf.get .amount = "straße" ∧ s1.ui.tf.get .currency = "EUR") := by
  obtain ⟨ht, hp, hr⟩ := field_update_is_a_merge upperLatin1
  obtain ⟨s3, u1, -, u3, -⟩ := ht draftsEdited .currency "µÿàþ÷ª z"
  obtain ⟨s4, v1, -, v3, v4⟩ := ht draftsEdited .amount "straße"
  obtain ⟨c1, c2⟩ := hr upperLatin1_idem (by decide) draftsEdited draftsEdited_reachable
  obtain ⟨s1, t1, t2, t3, t4⟩ := ht draftsEdited .currency "gbp"
  obtain ⟨s2, p1, p2, p3, p4⟩ := hp draftsEdited .merchantId "M1"
  refine ⟨by decide, by decide, c1, c2, ⟨s1, t1, ?_, t4 .channel (by decide), ?_, ?_, ?_⟩,
    ⟨s2, p1, ?_, ?_, ?_, ?_, ?_⟩, ⟨s3, u1, by rw [u3]; decide⟩,
    ⟨s4, v1, by rw [v3]; decide, by rw [v4 .currency (by decide)]; decide⟩⟩
  · rw [t3]; decide
  · exact congrArg (fun x => x.ui.pf) t2
  · exact congrArg (fun x => x.log) t2
  · exact congrArg (fun x => x.alerts) t2
  · rw [p3]; decide
  · rw [p4 .currency (by decide)]; decide
  · rw [p4 .from (by decide)]; decide
  · exact congrArg (fun x => x.ui.tf) p2
  · exact congrArg (fun x => x.log) p2

/-- C9: setting the customer id to the value it already holds, which is what
the refresh button does, changes nothing: no request, no loading flag, the same
state. A step issues a transactions request only when it sets the customer id
to a different value, and then for that value; the one other transactions
request is the one of the first render. -/
theorem refresh_is_a_noop (up : String → String) (s : Sys) :
    step up s .refresh = some s ∧
    step up s (.setCid s.ui.cid) = some s ∧
    (∀ (e : Ev) (s1 : Sys), step up s e = some s1 →
      ∃ d, s1.log = s.log ++ d ∧
        ∀ t c, (t, Req.getTransactions c) ∈ d → e = .setCid c ∧ c ≠ s.ui.cid) ∧
    mount.log = [(0, .getAccounts), (0, .getTransactions "C001")] := by
  refine ⟨by simp [step, refresh, setCid], by simp [step, setCid], ?_, rfl⟩
  intro e s1 h
  cases e with
  | setSelected v =>
    simp only [step, Option.some.injEq] at h; subst h
    unfold setSelected balanceEffect
    split_ifs
    · exact ⟨[], by simp, by simp⟩
    · exact ⟨[_], rfl, by simp⟩
    · exact ⟨[], by simp, by simp⟩
  | setCid v =>
    simp only [step, Option.some.injEq] at h; subst h
    unfold setCid transactionsEffect
    split_ifs with hv
    · exact ⟨[], by simp, by simp⟩
    · refine ⟨[_], rfl, ?_⟩
      intro t c hc
      simp only [List.mem_singleton, Prod.mk.injEq, Req.getTransactions.injEq] at hc
      obtain ⟨-, rfl⟩ := hc
      exact ⟨rfl, hv⟩
  | refresh =>
    simp only [step, Option.some.injEq] at h; subst h
    exact ⟨[], by simp [refresh, setCid], by simp⟩
  | setMerchQuery v =>
    simp only [step, Option.some.injEq] at h; subst h
    refine ⟨[], ?_, by simp⟩
    unfold setMerchQuery merchantEffect
    simp only
    split_ifs <;> cases hc : s.cleanup <;> simp [merchantCleanup, hc]
  | setTf f v =>
    simp only [step, Option.some.injEq] at h; subst h
    exact ⟨[], by simp [setTf], by simp⟩
  | setPf f v =>
    simp only [step, Option.some.injEq] at h; subst h
    exact ⟨[], by simp [setPf], by simp⟩
  | clickMerchant m =>
    simp only [step] at h
    split_ifs at h with hm
    simp only [Option.some.injEq] at h; subst h
    exact ⟨[], by simp [(clickMerchant_effect s m).2.1], by simp⟩
  | submitTransfer =>
    simp only [step, Option.some.injEq] at h; subst h
    unfold submitTransfer
    split_ifs
    · exact ⟨[_], rfl, by simp [Sys.issue]⟩
    · exact ⟨[], by simp [Sys.alert], by simp⟩
  | submitPay =>
    simp only [step, Option.some.injEq] at h; subst h
    unfold submitPay
    split_ifs
    · exact ⟨[_], rfl, by simp [Sys.issue]⟩
    · exact ⟨[], by simp [Sys.alert], by simp⟩
  | deliver i r =>
    simp only [step, deliver] at h
    cases hp : s.inflight[i]? with
    | none => simp [hp] at h
    | some p =>
      simp only [hp] at h
      obtain ⟨d, hd, hno⟩ := resolve_log h
      exact ⟨d, by simpa using hd, fun t c hc => absurd hc (hno t c)⟩
  | advance dt =>
    simp only [step, Option.some.injEq] at h; subst h
    refine ⟨_, advance_log s dt, ?_⟩
    intro t c hc
    simp at hc

theorem refresh_is_a_noop_witness :
    step upperLatin1 afterSearch .refresh = some afterSearch :=
  (refresh_is_a_noop upperLatin1 afterSearch).1

/-- C4: after a burst of changes of the search text, each less than 250 ms
after the one before, and then at least 250 ms without a change, the requests
issued since the burst began are: none, when the final text trims to empty,
and then the suggestion list was emptied at that last change; otherwise one
merchant lookup, issued 250 ms after the last change and carrying the trimmed
final text. Right after the last change the only pending timer is the one
that change set, so each change cancelled the timer of the one before, and
nothing had been issued by then. -/
theorem debounce_issues_one_lookup (up : String → String) (s : Sys) (hs : Reachable up s)
    (v0 : String) (rest : List (Nat × String))
    (hchange : List.Chain (fun a b => a ≠ b) s.ui.merchQuery (v0 :: rest.map Prod.snd))
    (hfast : ∀ x ∈ rest, x.1 < 250) (quiet : Nat) (hquiet : 250 ≤ quiet) :
    ∃ s1 s2, run up s (keystrokes v0 rest) = some s1 ∧
      step up s1 (.advance quiet) = some s2 ∧
      s1.ui.merchQuery = (rest.map Prod.snd).getLastD v0 ∧
      s1.now = s.now + (rest.map Prod.fst).sum ∧
      s1.log = s.log ∧
      s1.timers.map (fun t => (t.deadline, t.q)) =
        (if trim s1.ui.merchQuery = "" then [] else [(s1.now + 250, trim s1.ui.merchQuery)]) ∧
      (trim s1.ui.merchQuery = "" → s1.ui.merchList = []) ∧
      s2.log = s.log ++
        (if trim s1.ui.merchQuery = "" then []
          else [(s1.now + 250, .getMerchants (trim s1.ui.merchQuery))]) ∧
      s2.timers = [] := by
  obtain ⟨s1, id, r1, -, r3, r4, r5, -, -, r8, r9⟩ :=
    burst up rest s v0 (reachable_timerInv up hs) hchange hfast
  have hdue : ∀ t ∈ s1.timers, t.deadline ≤ s1.now + quiet := by
    intro t ht
    rw [r8] at ht
    split_ifs at ht
    · simp at ht
    · simp only [List.mem_singleton] at ht
      subst ht
      simp only
      omega
  obtain ⟨a1, a2, -⟩ := advance_due s1 quiet hdue
  refine ⟨s1, advance s1 quiet, r1, rfl, r3, r4, r5, ?_, ?_, ?_, a2⟩
  · rw [r8, r3]
    split_ifs <;> simp
  · rw [r3]; exact r9
  · rw [a1, r5, r8, r3]
    split_ifs <;> simp

theorem debounce_issues_one_lookup_witness :
    ∃ s1 s2, run upperLatin1 mount (keystrokes "A" [(100, "Ac"), (120, " Acme ")]) = some s1 ∧
      step upperLatin1 s1 (.advance 250) = some s2 ∧
      s1.ui.merchQuery = " Acme " ∧
      s1.now = 220 ∧
      s2.log = mount.log ++ [(470, .getMerchants "Acme")] :=
  let ⟨s1, s2, h1, h2, h3, h4, _, _, _, h8, _⟩ :=
    debounce_issues_one_lookup upperLatin1 mount Reachable.mount "A"
      [(100, "Ac"), (120, " Acme ")]
      (List.Chain.cons (by decide) (List.Chain.cons (by decide)
        (List.Chain.cons (by decide) List.Chain.nil)))
      (by decide) 250 (by decide)
  ⟨s1, s2, h1, h2, h3, h4, by
    rw [h8, h3, h4]
    decide⟩

/-- C10, as the claim states it, fails: the name `Acme` trims to a non-empty
text and differs from the search text `Ac`, the click restarts the search and
one lookup for `Acme` goes out, and yet the suggestion list is empty afterwards,
both when the reply lists no merchant and when the lookup fails. -/
theorem list_can_stay_empty_after_click :
    trim "Acme" ≠ "" ∧ "Acme" ≠ afterSearch.ui.merchQuery ∧
    (⟨"M1", "Acme"⟩ : Merchant) ∈ afterSearch.ui.merchList ∧
    (run upperLatin1 afterSearch
      [.clickMerchant ⟨"M1", "Acme"⟩, .advance 300, .deliver 2 (.merchants [])]).map
      (fun s => (s.log.drop afterSearch.log.length, s.ui.merchList)) =
      some ([(500, .getMerchants "Acme")], []) ∧
    (run upperLatin1 afterSearch
      [.clickMerchant ⟨"M1", "Acme"⟩, .advance 300, .deliver 2 .networkError]).map
      (fun s => (s.log.drop afterSearch.log.length, s.ui.merchList)) =
      some ([(500, .getMerchants "Acme")], []) := by
  decide

/-- C10, amended: a click on a suggestion whose name trims to a non-empty text
and differs from the search text restarts the debounced search: the click
leaves an empty list and issues nothing, nothing is issued before 250 ms have
passed, and once they have, with no change of the text in between, one merchant
lookup for the trimmed name has been issued, 250 ms after the click. When its
reply arrives with a list, that list, which may be empty, replaces the emptied
suggestion list; when the lookup fails the list stays empty. -/
theorem click_restarts_search (up : String → String) (s : Sys) (hs : Reachable up s)
    (m : Merchant) (hm : m ∈ s.ui.merchList) (hname : trim m.name ≠ "")
    (hdiff : m.name ≠ s.ui.merchQuery) (quiet : Nat) (hquiet : 250 ≤ quiet) :
    ∃ s1 s2, step up s (.clickMerchant m) = some s1 ∧
      s1.ui.merchList = [] ∧ s1.log = s.log ∧
      (∀ d, d < 250 → ∃ s4, step up s1 (.advance d) = some s4 ∧ s4.log = s.log) ∧
      step up s1 (.advance quiet) = some s2 ∧
      s2.log = s.log ++ [(s.now + 250, .getMerchants (trim m.name))] ∧
      s2.inflight = s.inflight ++ [⟨.getMerchants (trim m.name), s.ui.selected⟩] ∧
      (∀ l : List Merchant, ∃ s3,
        step up s2 (.deliver s.inflight.length (.merchants l)) = some s3 ∧
        s3.ui.merchList = l ∧ s3.ui.merchQuery = m.name) ∧
      (∀ r : Reply, (r = .networkError ∨ ∃ ok, r = .unparseable ok) → ∃ s3,
        step up s2 (.deliver s.inflight.length r) = some s3 ∧
        s3.ui.merchList = [] ∧ s3.ui.merchQuery = m.name) := by
  obtain ⟨e1, e2, e3, -, e5⟩ := clickMerchant_effect s m
  obtain ⟨c1, c2, -⟩ := clickMerchant_changed s m hdiff (reachable_timerInv up hs)
  rw [if_neg hname] at c1
  have hdue : ∀ t ∈ (clickMerchant s m).timers, t.deadline ≤ (clickMerchant s m).now + quiet := by
    intro t ht
    rw [c1, List.mem_singleton] at ht
    subst ht
    simp only [e5]
    omega
  obtain ⟨a1, -, a3⟩ := advance_due (clickMerchant s m) quiet hdue
  rw [c1, e2] at a1
  rw [c1, e3, c2] at a3
  simp only [List.map_cons, List.map_nil] at a1 a3
  have hget : (advance (clickMerchant s m) quiet).inflight[s.inflight.length]? =
      some ⟨.getMerchants (trim m.name), s.ui.selected⟩ := by
    rw [a3]; simp
  have hdel : ∀ l : List Merchant, ∃ s3, step up (advance (clickMerchant s m) quiet)
      (.deliver s.inflight.length (.merchants l)) = some s3 ∧
      s3.ui.merchList = l ∧ s3.ui.merchQuery = m.name := by
    intro l
    simp only [step, deliver, hget, resolve]
    exact ⟨_, rfl, rfl, by simp [advance_ui, e1]⟩
  have hfail : ∀ r : Reply, (r = .networkError ∨ ∃ ok, r = .unparseable ok) → ∃ s3,
      step up (advance (clickMerchant s m) quiet) (.deliver s.inflight.length r) = some s3 ∧
      s3.ui.merchList = [] ∧ s3.ui.merchQuery = m.name := by
    intro r hr
    refine ⟨_, deliver_rejected up _ _ _ hget r hr, ?_, ?_⟩
    · simp [rejected, advance_ui, e1]
    · simp [rejected, advance_ui, e1]
  have hbefore : ∀ d, d < 250 →
      ∃ s4, step up (clickMerchant s m) (.advance d) = some s4 ∧ s4.log = s.log := by
    intro d hd
    refine ⟨advance (clickMerchant s m) d, rfl, ?_⟩
    have hnd : ∀ t ∈ (clickMerchant s m).timers, (clickMerchant s m).now + d < t.deadline := by
      intro t ht
      rw [c1, List.mem_singleton] at ht
      subst ht
      simp only [e5]
      omega
    rw [(advance_not_due (clickMerchant s m) d hnd).1, e2]
  exact ⟨clickMerchant s m, advance (clickMerchant s m) quiet, by simp [step, hm],
    by rw [e1], e2, hbefore, rfl, a1, a3, hdel, hfail⟩

theorem click_restarts_search_witness :
    ∃ s1 s2, step upperLatin1 spacedSearch (.clickMerchant ⟨"M2", " Acme Tools "⟩) = some s1 ∧
      s1.ui.merchList = [] ∧
      step upperLatin1 s1 (.advance 300) = some s2 ∧
      s2.log = spacedSearch.log ++ [(500, .getMerchants "Acme Tools")] ∧
      (∃ s3, step upperLatin1 s2 (.deliver 2 (.merchants [⟨"M2", " Acme Tools "⟩])) = some s3 ∧
        s3.ui.merchList = [⟨"M2", " Acme Tools "⟩] ∧ s3.ui.merchQuery = " Acme Tools ") ∧
      (∃ s3, step upperLatin1 s2 (.deliver 2 (.merchants [])) = some s3 ∧
        s3.ui.merchList = []) ∧
      (∃ s3, step upperLatin1 s2 (.deliver 2 .networkError) = some s3 ∧
        s3.ui.merchList = []) := by
  obtain ⟨s1, s2, h1, h2, -, -, h5, h6, -, h8, h9⟩ :=
    click_restarts_search upperLatin1 spacedSearch spacedSearch_reachable
      ⟨"M2", " Acme Tools "⟩ (by decide) (by decide) (by decide) 300 (by decide)
  have hlen : spacedSearch.inflight.length = 2 := by decide
  have hlog : [(spacedSearch.now + 250, Req.getMerchants (trim " Acme Tools "))] =
      [(500, Req.getMerchants "Acme Tools")] := by decide
  rw [hlen] at h8 h9
  rw [hlog] at h6
  obtain ⟨s3, d1, d2, d3⟩ := h8 [⟨"M2", " Acme Tools "⟩]
  obtain ⟨s4, f1, f2, -⟩ := h8 []
  obtain ⟨s5, g1, g2, -⟩ := h9 .networkError (Or.inl rfl)
  exact ⟨s1, s2, h1, h2, h5, h6, ⟨s3, d1, d2, d3⟩, ⟨s4, f1, f2⟩, ⟨s5, g1, g2⟩⟩

/-- C2, as the claim states it, fails twice. The submitted transfer has
`from` equal to the selection `A100`; a 2xx reply whose body does not parse
issues no balance request. And when the selection has moved to `A200` before
the accepting reply arrives, so that `from` differs from the selection then
observed, one balance request for `A100` is issued all the same. -/
theorem acceptance_alone_does_not_decide_the_refresh :
    submitted.ui.selected = "A100" ∧ submitted.ui.tf.from = "A100" ∧
    submitted.inflight[1]? =
      some ⟨.postTransfer ⟨"A100", "A200", "10", "USD", "T1", "ui"⟩, "A100"⟩ ∧
    (step upperLatin1 submitted (.deliver 1 (.unparseable true))).map
      (fun s => s.log.drop submitted.log.length) = some [] ∧
    selectionMoved.ui.selected = "A200" ∧
    selectionMoved.inflight[1]? =
      some ⟨.postTransfer ⟨"A100", "A200", "10", "USD", "T1", "ui"⟩, "A100"⟩ ∧
    (step upperLatin1 selectionMoved (.deliver 1 (.posted true (.value .undefined)))).map
      (fun s => (s.ui.selected, s.log.drop selectionMoved.log.length)) =
      some ("A200", [(0, .getBalance "A100")]) := by
  decide

/-- C2, amended: a complete transfer (payment) draft that is submitted puts one
`POST` in flight that remembers the selection observed at the submission. In
any later state in which that request is still outstanding, whatever the
selection is by then, the arrival of an accepting reply with a parsed body
raises the success alert and issues exactly one balance request, for the
draft's `from`, when `from` equals the selection observed at the submission,
and issues nothing when it differs. A reply whose body does not parse, with
whatever status, or a transport failure issues nothing. -/
theorem acceptance_refreshes_selection_at_submit (up : String → String) (s : Sys)
    (j : PostBody) :
    (s.ui.tf.complete = true →
      ∃ s1, step up s .submitTransfer = some s1 ∧
        s1.inflight = s.inflight ++ [⟨.postTransfer s.ui.tf, s.ui.selected⟩] ∧
        ∀ (s2 : Sys) (i : Nat),
          s2.inflight[i]? = some ⟨.postTransfer s.ui.tf, s.ui.selected⟩ →
          (∃ s3, step up s2 (.deliver i (.posted true j)) = some s3 ∧
            s3.log = s2.log ++
              (if s.ui.tf.from = s.ui.selected then [(s2.now, .getBalance s.ui.tf.from)]
                else []) ∧
            s3.alerts = s2.alerts ++ [transferDone]) ∧
          (∀ r : Reply, (r = .networkError ∨ ∃ ok, r = .unparseable ok) →
            ∃ s3, step up s2 (.deliver i r) = some s3 ∧ s3.log = s2.log ∧
              s3.alerts = s2.alerts)) ∧
    (s.ui.pf.complete = true →
      ∃ s1, step up s .submitPay = some s1 ∧
        s1.inflight = s.inflight ++ [⟨.postPay s.ui.pf, s.ui.selected⟩] ∧
        ∀ (s2 : Sys) (i : Nat),
          s2.inflight[i]? = some ⟨.postPay s.ui.pf, s.ui.selected⟩ →
          (∃ s3, step up s2 (.deliver i (.posted true j)) = some s3 ∧
            s3.log = s2.log ++
              (if s.ui.pf.from = s.ui.selected then [(s2.now, .getBalance s.ui.pf.from)]
                else []) ∧
            s3.alerts = s2.alerts ++ [payDone]) ∧
          (∀ r : Reply, (r = .networkError ∨ ∃ ok, r = .unparseable ok) →
            ∃ s3, step up s2 (.deliver i r) = some s3 ∧ s3.log = s2.log ∧
              s3.alerts = s2.alerts)) := by
  constructor
  · intro hc
    refine ⟨submitTransfer s, rfl, by simp [submitTransfer, hc, Sys.issue, Sys.issueAt], ?_⟩
    intro s2 i hp
    refine ⟨⟨_, deliver_postTransfer up s2 i _ _ hp true j, ?_, ?_⟩, ?_⟩
    · rw [afterPost_log]
      by_cases h : s.ui.tf.from = s.ui.selected
      · simp [h]
      · simp only [h, if_false, List.append_nil, true_and]
        rw [if_neg (fun h2 => h h2.symm)]
        simp
    · rw [afterPost_alerts]; simp
    · intro r hr
      exact ⟨_, deliver_rejected up s2 i _ hp r hr, by simp [rejected], by simp [rejected]⟩
  · intro hc
    refine ⟨submitPay s, rfl, by simp [submitPay, hc, Sys.issue, Sys.issueAt], ?_⟩
    intro s2 i hp
    refine ⟨⟨_, deliver_postPay up s2 i _ _ hp true j, ?_, ?_⟩, ?_⟩
    · rw [afterPost_log]
      by_cases h : s.ui.pf.from = s.ui.selected
      · simp [h]
      · simp only [h, if_false, List.append_nil, true_and]
        rw [if_neg (fun h2 => h h2.symm)]
        simp
    · rw [afterPost_alerts]; simp
    · intro r hr
      exact ⟨_, deliver_rejected up s2 i _ hp r hr, by simp [rejected], by simp [rejected]⟩

theorem acceptance_refreshes_selection_at_submit_witness :
    readyToSubmit.ui.selected = "A100" ∧ readyToSubmit.ui.balance = .num "42.5" ∧
    readyToSubmit.ui.tf = ⟨"A100", "A200", "10", "USD", "T1", "ui"⟩ ∧
    readyToSubmit.log.map Prod.snd =
      [.getAccounts, .getTransactions "C001", .getBalance "A100"] ∧
    (∃ s1 s3, step upperLatin1 readyToSubmit .submitTransfer = some s1 ∧
      step upperLatin1 s1 (.deliver 1 (.posted true (.value .undefined))) = some s3 ∧
      s3.log = s1.log ++ [(0, .getBalance "A100")]) ∧
    selectionMoved.ui.selected = "A200" ∧
    (∃ s3, step upperLatin1 selectionMoved (.deliver 1 (.posted true (.value .undefined))) =
        some s3 ∧
      s3.log = selectionMoved.log ++ [(0, .getBalance "A100")]) ∧
    (∃ s3, step upperLatin1 selectionMoved (.deliver 1 (.unparseable true)) = some s3 ∧
      s3.log = selectionMoved.log) := by
  obtain ⟨s1, h1, h2, h3⟩ :=
    (acceptance_refreshes_selection_at_submit upperLatin1 readyToSubmit (.value .undefined)).1
      (by decide)
  obtain ⟨⟨s3, h4, h5, -⟩, -⟩ := h3 s1 1 (by rw [h2]; decide)
  obtain ⟨⟨s4, m1, m2, -⟩, hrej⟩ := h3 selectionMoved 1 (by decide)
  obtain ⟨s5, n1, n2, -⟩ := hrej (.unparseable true) (Or.inr ⟨true, rfl⟩)
  have hn : s1.now = 0 := by
    have h6 := h1
    simp only [step, Option.some.injEq] at h6
    rw [← h6]
    decide
  have he : (if readyToSubmit.ui.tf.from = readyToSubmit.ui.selected then
      [(0, Req.getBalance readyToSubmit.ui.tf.from)] else []) =
      [(0, Req.getBalance "A100")] := by decide
  have hm : (if readyToSubmit.ui.tf.from = readyToSubmit.ui.selected then
      [(selectionMoved.now, Req.getBalance readyToSubmit.ui.tf.from)] else []) =
      [(0, Req.getBalance "A100")] := by decide
  rw [hn, he] at h5
  rw [hm] at m2
  exact ⟨by decide, by decide, by decide, by decide, ⟨s1, s3, h1, h4, h5⟩, by decide,
    ⟨s4, m1, m2⟩, ⟨s5, n1, n2⟩⟩

/-- C6, as the claim states it, fails: the submitted transfer of the scenario
is outstanding, and when its request fails in transport, or is answered with a
2xx status and a body that is not JSON, no alert at all is raised. -/
theorem transport_failure_raises_no_alert :
    submitted.inflight[1]? =
      some ⟨.postTransfer ⟨"A100", "A200", "10", "USD", "T1", "ui"⟩, "A100"⟩ ∧
    submitted.alerts = [] ∧
    (step upperLatin1 submitted (.deliver 1 .networkError)).map (fun s => s.alerts) = some [] ∧
    (step upperLatin1 submitted (.deliver 1 (.unparseable true))).map (fun s => s.alerts) =
      some [] ∧
    (step upperLatin1 submitted (.deliver 1 (.unparseable false))).map (fun s => s.alerts) =
      some [] := by
  decide

/-- C6, amended: once the body of the reply to an outstanding transfer or
payment has parsed, the status decides the outcome. A 2xx status raises the
success alert whatever the parsed body. A non-2xx status with a body other than
`null` raises exactly one failure alert and issues nothing; its text carries
the `error` member when that is truthy and `unknown` otherwise, so a non-empty
string reason appears verbatim and an absent or empty one gives `unknown`. A
transport failure, a body that does not parse, or a non-2xx `null` body raises
no alert and changes nothing but the set of outstanding requests. -/
theorem submission_outcome (up : String → String) (s : Sys) (i : Nat) (p : Pending)
    (hp : s.inflight[i]? = some p) (done : String)
    (hpost : (∃ body, p.req = .postTransfer body ∧ done = transferDone) ∨
      (∃ body, p.req = .postPay body ∧ done = payDone)) :
    (∀ j, ∃ s1, step up s (.deliver i (.posted true j)) = some s1 ∧
      s1.alerts = s.alerts ++ [done]) ∧
    (∀ error, ∃ s1, step up s (.deliver i (.posted false (.value error))) = some s1 ∧
      s1.alerts = s.alerts ++ ["失败：" ++ (if error.truthy then error.toStr else "unknown")] ∧
      s1.log = s.log) ∧
    (∀ r, r = .networkError ∨ (∃ ok, r = .unparseable ok) ∨ r = .posted false .null →
      step up s (.deliver i r) = some { s with inflight := s.inflight.eraseIdx i }) ∧
    (∀ x : String, x ≠ "" → (JVal.str x).truthy = true ∧ (JVal.str x).toStr = x) ∧
    (JVal.str "").truthy = false ∧ JVal.undefined.truthy = false := by
  obtain ⟨req, sel⟩ := p
  simp only at hpost
  refine ⟨?_, ?_, ?_, ?_, rfl, rfl⟩
  · intro j
    rcases hpost with ⟨body, rfl, rfl⟩ | ⟨body, rfl, rfl⟩
    · exact ⟨_, deliver_postTransfer up s i body sel hp true j,
        by rw [afterPost_alerts]; simp⟩
    · exact ⟨_, deliver_postPay up s i body sel hp true j, by rw [afterPost_alerts]; simp⟩
  · intro error
    rcases hpost with ⟨body, rfl, rfl⟩ | ⟨body, rfl, rfl⟩
    · exact ⟨_, deliver_postTransfer up s i body sel hp false (.value error),
        by rw [afterPost_alerts]; simp [failureText], by rw [afterPost_log]; simp⟩
    · exact ⟨_, deliver_postPay up s i body sel hp false (.value error),
        by rw [afterPost_alerts]; simp [failureText], by rw [afterPost_log]; simp⟩
  · intro r hr
    rcases hpost with ⟨body, rfl, rfl⟩ | ⟨body, rfl, rfl⟩ <;>
      rcases hr with rfl | ⟨ok, rfl⟩ | rfl <;>
      simp [step, deliver, hp, resolve, rejected, afterPost]
  · intro x hx
    exact ⟨by simp [JVal.truthy, hx], rfl⟩

theorem submission_outcome_witness :
    ∃ s1, step upperLatin1 submitted
        (.deliver 1 (.posted false (.value (.str "insufficient funds")))) = some s1 ∧
      s1.alerts = submitted.alerts ++ ["失败：insufficient funds"] ∧
      s1.log = submitted.log :=
  (submission_outcome upperLatin1 submitted 1
    ⟨.postTransfer ⟨"A100", "A200", "10", "USD", "T1", "ui"⟩, "A100"⟩ (by decide) transferDone
    (Or.inl ⟨_, rfl, rfl⟩)).2.1 (.str "insufficient funds")

/-- C1, as the claim states it, fails: the selection is `A200`, the customer id
`C002` and the search text `b`, and the requests issued for `A100`, `C001` and
`a` are still outstanding; the reply to each of them is applied to the balance,
the rows and the suggestion list. -/
theorem superseded_reply_is_applied :
    keysMoved.ui.selected = "A200" ∧ keysMoved.ui.cid = "C002" ∧
    keysMoved.ui.merchQuery = "b" ∧
    keysMoved.inflight.map (fun p => p.req) =
      [.getAccounts, .getTransactions "C001", .getBalance "A100", .getBalance "A200",
        .getTransactions "C002", .getMerchants "a"] ∧
    (step upperLatin1 keysMoved (.deliver 2 (.balance (.num "42.5")))).map
      (fun s => (s.ui.selected, s.ui.balance)) = some ("A200", .num "42.5") ∧
    (step upperLatin1 keysMoved (.deliver 1 (.transactions
      [⟨"transfer", "A100", "A200", .num "10", "USD", "ui", "2024-01-01"⟩]))).map
      (fun s => (s.ui.cid, s.ui.rows)) =
      some ("C002", [⟨"transfer", "A100", "A200", .num "10", "USD", "ui", "2024-01-01"⟩]) ∧
    (step upperLatin1 keysMoved (.deliver 5 (.merchants [⟨"M1", "Acme"⟩]))).map
      (fun s => (s.ui.merchQuery, s.ui.merchList)) = some ("b", [⟨"M1", "Acme"⟩]) := by
  decide

/-- C1, amended: the reply to an outstanding balance, transactions or merchant
request is applied when it arrives, whatever the selection, the customer id and
the search text are at that moment: its payload becomes the balance, the rows
or the suggestion list, and the keys are left as they are. -/
theorem every_reply_is_applied (up : String → String) (s : Sys) (i : Nat) (p : Pending)
    (hp : s.inflight[i]? = some p) :
    (∀ k v, p.req = .getBalance k →
      ∃ s1, step up s (.deliver i (.balance v)) = some s1 ∧ s1.ui.balance = v ∧
        s1.ui.selected = s.ui.selected) ∧
    (∀ k l, p.req = .getTransactions k →
      ∃ s1, step up s (.deliver i (.transactions l)) = some s1 ∧ s1.ui.rows = l ∧
        s1.ui.cid = s.ui.cid) ∧
    (∀ q l, p.req = .getMerchants q →
      ∃ s1, step up s (.deliver i (.merchants l)) = some s1 ∧ s1.ui.merchList = l ∧
        s1.ui.merchQuery = s.ui.merchQuery) := by
  obtain ⟨req, sel⟩ := p
  refine ⟨?_, ?_, ?_⟩
  · intro k v hk
    simp only at hk
    subst hk
    exact ⟨{ s with inflight := s.inflight.eraseIdx i, ui := { s.ui with balance := v } },
      by simp only [step, deliver, hp, resolve], rfl, rfl⟩
  · intro k l hk
    simp only at hk
    subst hk
    exact ⟨{ s with
        inflight := s.inflight.eraseIdx i
        ui := { s.ui with rows := l, loading := false } },
      by simp only [step, deliver, hp, resolve], rfl, rfl⟩
  · intro q l hq
    simp only at hq
    subst hq
    exact ⟨{ s with inflight := s.inflight.eraseIdx i, ui := { s.ui with merchList := l } },
      by simp only [step, deliver, hp, resolve], rfl, rfl⟩

theorem every_reply_is_applied_witness :
    keysMoved.ui.selected = "A200" ∧
    ∃ s1, step upperLatin1 keysMoved (.deliver 2 (.balance (.num "42.5"))) = some s1 ∧
      s1.ui.balance = .num "42.5" ∧ s1.ui.selected = keysMoved.ui.selected :=
  ⟨by decide,
    (every_reply_is_applied upperLatin1 keysMoved 2 ⟨.getBalance "A100", "A100"⟩
      (by decide)).1 "A100" (.num "42.5") rfl⟩

/-- C5, at the failing input: with the rows of customer `C001` on display,
setting the customer id to the empty string issues a transactions request for
the empty id, sets the loading flag and leaves the rows of `C001` in place. -/
theorem empty_customer_id_is_fetched :
    rowsLoaded.ui.cid = "C001" ∧
    rowsLoaded.ui.rows = [⟨"transfer", "A100", "A200", .num "10", "USD", "ui", "2024-01-01"⟩] ∧
    rowsLoaded.ui.loading = false ∧
    (step upperLatin1 rowsLoaded (.setCid "")).map
      (fun s => (s.ui.cid, s.log.drop rowsLoaded.log.length, s.ui.rows, s.ui.loading)) =
      some ("", [(0, .getTransactions "")],
        [⟨"transfer", "A100", "A200", .num "10", "USD", "ui", "2024-01-01"⟩], true) := by
  decide

end BankingUI
